import Mathlib

/-!
Verification of the LearnLab content-generation orchestration engine
(`src/backend/agents/podcast_agent/learn_lab_assistant_agent.py`).

The Python source is shallowly embedded: Python strings are modelled through
their character lists, the stage functions of the workflow graph become pure
Lean functions threading an explicit state and an effect log, exceptions
become `Except`, and the external collaborators (retrieval, language model,
TTS, upload, cache, quiz and flashcard generators) are abstracted as an
environment of functions, exactly as the spec treats them (black boxes).
-/

set_option maxRecDepth 100000

namespace LearnLab

/-! ## Python string primitives, modelled on `List Char`

Each definition mirrors the semantics of the corresponding Python `str`
method (`split('\n')`, `strip()`, `startswith`, `replace(pat, "")`).
They are structurally recursive so the kernel can evaluate them.
-/

/-- The characters stripped by Python `str.strip()` (ASCII whitespace). -/
def isWsChar (c : Char) : Bool :=
  (c == ' ') || (c == '\t') || (c == '\n') || (c == '\r') || (c == '\x0b') || (c == '\x0c')

/-- Drop trailing whitespace characters (right-hand half of `str.strip()`). -/
def dropTrailingWs : List Char → List Char
  | [] => []
  | c :: cs =>
    let r := dropTrailingWs cs
    if r = [] && isWsChar c then [] else c :: r

/-- Python `str.strip()` on a character list. -/
def trimChars (l : List Char) : List Char :=
  dropTrailingWs (l.dropWhile isWsChar)

/-- Auxiliary for `splitLines`: accumulates the current chunk reversed. -/
def splitLinesAux : List Char → List Char → List (List Char)
  | acc, [] => [acc.reverse]
  | acc, c :: rest =>
    if c = '\n' then acc.reverse :: splitLinesAux [] rest
    else splitLinesAux (c :: acc) rest

/-- Python `str.split('\n')` on a character list. -/
def splitLines (l : List Char) : List (List Char) :=
  splitLinesAux [] l

/-- Python `str.startswith(pat)` on character lists (pattern first). -/
def startsWithL : List Char → List Char → Bool
  | [], _ => true
  | _ :: _, [] => false
  | p :: ps, c :: cs => (p == c) && startsWithL ps cs

/-- Does `pat` occur as a contiguous substring? -/
def containsSub (pat : List Char) : List Char → Bool
  | [] => startsWithL pat []
  | c :: cs => startsWithL pat (c :: cs) || containsSub pat cs

/-- Fuelled core of `removeAll`: scans left to right; on a match skips the
matched characters and continues after them (Python `str.replace(pat, "")`
semantics: non-overlapping, no rescan of the produced text). -/
def removeAllAux (pat : List Char) : Nat → List Char → List Char
  | _, [] => []
  | 0, s => s
  | fuel + 1, c :: cs =>
    if startsWithL pat (c :: cs) then removeAllAux pat fuel ((c :: cs).drop pat.length)
    else c :: removeAllAux pat fuel cs

/-- Python `s.replace(pat, "")` on character lists (for non-empty `pat`). -/
def removeAll (pat s : List Char) : List Char :=
  removeAllAux pat s.length s

/-- Join chunks with a newline (used to render scripts back to text). -/
def intercalateNl : List (List Char) → List Char
  | [] => []
  | [l] => l
  | l :: l2 :: ls => l ++ '\n' :: intercalateNl (l2 :: ls)

/-- Python `'\n'.join(strings)`. -/
def joinNl (ls : List String) : String :=
  String.mk (intercalateNl (ls.map String.data))

/-- Join chunks with a single space. -/
def intercalateSp : List (List Char) → List Char
  | [] => []
  | [l] => l
  | l :: l2 :: ls => l ++ ' ' :: intercalateSp (l2 :: ls)

/-- Python `' '.join(strings)`. -/
def joinSp (ls : List String) : String :=
  String.mk (intercalateSp (ls.map String.data))

/-! ## Data model (`RAGContext`, `PodcastSegment`, ..., `EnhancedGraphState`) -/

/-- `RAGContext` pydantic model: question, pdf title, optional answer,
evidence snippets. -/
structure RAGContext where
  question : String
  pdf_title : String
  answer : Option String
  evidence : List String
deriving DecidableEq, Repr

/-- `PodcastSegment` pydantic model. -/
structure PodcastSegment where
  speaker : String
  text : String
  expression : Option String
deriving DecidableEq, Repr

/-- `PodcastScript` pydantic model: a list of segments. -/
structure PodcastScript where
  segments : List PodcastSegment
deriving DecidableEq, Repr

/-! ## The fallback parser (`parse_unstructured_script`) -/

/-- The characters of the first speaker role marker `"Speaker 1:"`. -/
def sp1 : List Char := "Speaker 1:".data

/-- The characters of the second speaker role marker `"Speaker 2:"`. -/
def sp2 : List Char := "Speaker 2:".data

/-- One loop iteration of `parse_unstructured_script`: a blank line yields
no segment; a line starting with a role marker is attributed to that role
with every occurrence of that marker removed (`str.replace`) and the result
stripped; any other line is attributed to Speaker 1, stripped. -/
def parseLine (line : List Char) : Option PodcastSegment :=
  if trimChars line = [] then none
  else if startsWithL sp1 line then
    some ⟨"Speaker 1", String.mk (trimChars (removeAll sp1 line)), none⟩
  else if startsWithL sp2 line then
    some ⟨"Speaker 2", String.mk (trimChars (removeAll sp2 line)), none⟩
  else
    some ⟨"Speaker 1", String.mk (trimChars line), none⟩

/-- `PodcastGenerator.parse_unstructured_script`: split on newlines, skip
blank lines, attribute each remaining line as in `parseLine`. -/
def parse_unstructured_script (script_text : String) : PodcastScript :=
  ⟨(splitLines script_text.data).filterMap parseLine⟩

/-- Render segments back to `"Speaker i: text"` lines joined by newlines
(the rendering used to state the round-trip property of the spec). -/
def renderScript (sc : PodcastScript) : String :=
  String.mk (intercalateNl (sc.segments.map
    (fun seg => seg.speaker.data ++ ':' :: ' ' :: seg.text.data)))

/-! ## Audio assembly (`generate_tts`, lines 462-473)

An `AudioSegment` is modelled by its duration in milliseconds; `+` on
pydub segments concatenates and adds durations, `AudioSegment.silent`
has exactly the requested duration, `AudioSegment.empty()` has zero. -/

/-- Duration of `combined_audio` after the assembly loop
`for audio in audio_segments: combined_audio += audio + silent(500)`. -/
def assembleCombinedDuration (clips : List Nat) : Nat :=
  clips.foldl (fun acc d => acc + (d + 500)) 0

/-! ## Remaining data model -/

/-- The bundle written by `cache.cache_podcast` and read back by
`cache.get_cached_podcast` (keys `topic`, `script`, `conversation_history`,
`source_pdf`, `s3_url`, `rag_context`). -/
structure CachedBundle where
  topic : String
  script : String
  conversation_history : List String
  source_pdf : Option String
  s3_url : String
  rag_answer : Option String
  rag_evidence : List String
deriving DecidableEq, Repr

/-- `CacheResult` pydantic model: the found flag and the cached payload. -/
structure CacheResult where
  found : Bool
  data : Option CachedBundle
deriving DecidableEq, Repr

/-- External flashcard item (black-box collaborator output). -/
structure Flashcard where
  front : String
  back : String
  explanation : Option String
deriving DecidableEq, Repr

/-- External `FlashcardSet` (black-box collaborator output). -/
structure FlashcardSet where
  title : String
  flashcards : List Flashcard
deriving DecidableEq, Repr

/-- External `QuizSet` (black-box collaborator output), kept opaque. -/
structure QuizSet where
  raw : String
deriving DecidableEq, Repr

/-- `EnhancedGraphState`: the request state threaded through the graph.
Messages are modelled by their content strings (the transcript). -/
structure EnhancedGraphState where
  messages : List String
  topic : String
  output_type : String
  rag_context : Option RAGContext
  pdf_title : Option String
  cache_result : Option CacheResult
  s3_url : Option String
  flashcards : Option FlashcardSet
  quiz : Option QuizSet
  current_stage : String
  script : Option String
deriving DecidableEq, Repr

/-- Python exceptions that the engine raises or catches. -/
inductive Err where
  | valueError (msg : String)
  | attrError (msg : String)
  | indexError (msg : String)
  | collaborator (msg : String)
  | graphRouting (msg : String)
deriving DecidableEq, Repr

/-- `rag_app.query_document` result: `{"answer": ..., "relevant_chunks": ...}`. -/
structure RagResponse where
  answer : String
  relevant_chunks : List String
deriving DecidableEq, Repr

/-- The external collaborators consumed by the engine, plus the structured
(pydantic JSON) script parser and the ambient timestamp, all abstracted as
functions; a `.error` result models the collaborator raising. -/
structure Env where
  cacheGet : String → String → Option CachedBundle
  ragQuery : String → String → Except Err RagResponse
  llm : String → Except Err String
  tts : String → Option String → Except Err Nat
  upload : String → String → Option String → Except Err String
  quizGen : String → String → Nat → Except Err QuizSet
  flashGen : String → Nat → String → Except Err FlashcardSet
  formatQuiz : QuizSet → String
  parseStructured : String → Option PodcastScript
  scriptToJson : PodcastScript → String
  voice1 : String
  voice2 : String
  timestamp : String

/-- Count of calls made to each external collaborator during a run, and the
list of cache writes performed. -/
structure Effects where
  ragCalls : Nat
  llmCalls : Nat
  ttsCalls : Nat
  uploadCalls : Nat
  quizCalls : Nat
  flashCalls : Nat
  cachePuts : List (String × Option String × CachedBundle)
deriving DecidableEq, Repr

/-- The zero effect log a run starts from. -/
def initEffects : Effects := ⟨0, 0, 0, 0, 0, 0, []⟩

/-- `self.voice_ids.get(segment.speaker)`. -/
def voiceLookup (env : Env) (speaker : String) : Option String :=
  if speaker = "Speaker 1" then some env.voice1
  else if speaker = "Speaker 2" then some env.voice2
  else none

/-- Python `str(x)` applied to an `Optional[str]` in an f-string. -/
def optStr : Option String → String
  | none => "None"
  | some s => s

/-! ## Workflow stages (`PodcastGenerator` methods) -/

/-- `route_content`: advances the stage label only. -/
def route_content (st : EnhancedGraphState) : EnhancedGraphState :=
  { st with current_stage := "routing" }

/-- `route_from_cache`: the conditional-edge selector after `check_cache`. -/
def route_from_cache (st : EnhancedGraphState) : String :=
  match st.cache_result with
  | some cr => if cr.found then "cached" else "not_cached"
  | none => "not_cached"

/-- `check_cache`: looks up `(rag_context.question, rag_context.pdf_title)`;
on a hit copies `s3_url` and `script` from the bundle and appends an audit
message. Accessing `state.rag_context.question` with `rag_context = None`
raises `AttributeError`. -/
def check_cache (env : Env) (st : EnhancedGraphState) (eff : Effects) :
    Except Err (EnhancedGraphState × Effects) :=
  match st.rag_context with
  | none => .error (.attrError "NoneType object has no attribute question")
  | some rc =>
    match env.cacheGet rc.question rc.pdf_title with
    | some bundle =>
      .ok ({ st with
        cache_result := some ⟨true, some bundle⟩,
        s3_url := some bundle.s3_url,
        script := some bundle.script,
        messages := st.messages ++ ["Retrieved cached podcast: " ++ bundle.s3_url],
        current_stage := "cache_check" }, eff)
    | none =>
      .ok ({ st with cache_result := some ⟨false, none⟩, current_stage := "cache_check" }, eff)

/-- The audit message appended by `retrieve_context`. -/
def researchContextMsg (resp : RagResponse) : String :=
  "Research Context:\n        Answer: " ++ resp.answer ++
    "\n        Evidence: " ++ joinSp resp.relevant_chunks

/-- `retrieve_context`: requires `rag_context` and a truthy `pdf_title`,
queries the retrieval collaborator and stores answer and evidence. -/
def retrieve_context (env : Env) (st : EnhancedGraphState) (eff : Effects) :
    Except Err (EnhancedGraphState × Effects) :=
  match st.rag_context, st.pdf_title with
  | none, _ => .error (.valueError "RAG context or PDF title not provided")
  | some _, none => .error (.valueError "RAG context or PDF title not provided")
  | some rc, some p =>
    if p = "" then .error (.valueError "RAG context or PDF title not provided")
    else
      let eff1 := { eff with ragCalls := eff.ragCalls + 1 }
      match env.ragQuery rc.question p with
      | .error e => .error e
      | .ok resp =>
        .ok ({ st with
          rag_context := some { rc with answer := some resp.answer,
                                        evidence := resp.relevant_chunks },
          messages := st.messages ++ [researchContextMsg resp],
          current_stage := "rag_retrieval" }, eff1)

/-- The serialized research context interpolated into the prompts. -/
def ragContextStr (rc : RAGContext) : String :=
  "Answer: " ++ optStr rc.answer ++ "\n        Evidence: " ++ joinSp rc.evidence

/-- `TOPIC_EXPANSION_PROMPT` with its placeholders substituted. -/
def topicExpansionPrompt (topic ragCtx msgs : String) : String :=
  "You are an expert podcast planner. Create a detailed outline for a 3-5 minute \npodcast discussion between two speakers using the provided research context.\n\nTopic: "
  ++ topic ++ "\n\nResearch Context:\n" ++ ragCtx ++
  "\n\nFocus on:\n1. Breaking down complex concepts from the research\n2. Including specific examples from the provided context\n3. Natural conversation flow\n4. Key insights and their implications\n\nCurrent conversation: "
  ++ msgs ++ "\n"

/-- `SCRIPT_GENERATION_PROMPT` with its placeholders substituted. Guideline
lines of the template that contain quotation or apostrophe characters are
elided here; the prompt text is only ever passed opaquely to the abstract
model collaborator, and no claim inspects it. -/
def scriptGenerationPrompt (ragCtx msgs outline : String) : String :=
  "You are a professional podcast script writer. Create a natural conversation \nbetween two speakers based on the research context and outline provided.\n\nResearch Context:\n"
  ++ ragCtx ++
  "\n\nGuidelines:\n- Speaker 1 is the host asks insightful questions and seeks clarification\n- Speaker 2 asks is who explains the research findings\n- Include natural elements for Speaker 2\n- Reference specific findings from the research\n- Keep the tone conversational yet informative\n\nKeep it as Speaker 1 and Speaker 2 only\n\nPrevious messages: "
  ++ msgs ++ "\nOutline: " ++ outline ++ "\n"

/-- `expand_topic`: one model call; the response is appended to the
transcript. A model failure propagates. -/
def expand_topic (env : Env) (st : EnhancedGraphState) (eff : Effects) :
    Except Err (EnhancedGraphState × Effects) :=
  match st.rag_context with
  | none => .error (.attrError "NoneType object has no attribute answer")
  | some rc =>
    let prompt := topicExpansionPrompt st.topic (ragContextStr rc) (joinNl st.messages)
    let eff1 := { eff with llmCalls := eff.llmCalls + 1 }
    match env.llm prompt with
    | .error e => .error e
    | .ok resp =>
      .ok ({ st with messages := st.messages ++ [resp],
                     current_stage := "topic_expansion" }, eff1)

/-- `generate_script`: one model call, then a structured-parse attempt; on
success the reserialized script is stored, otherwise the raw response. -/
def generate_script (env : Env) (st : EnhancedGraphState) (eff : Effects) :
    Except Err (EnhancedGraphState × Effects) :=
  match st.rag_context with
  | none => .error (.attrError "NoneType object has no attribute answer")
  | some rc =>
    match st.messages.getLast? with
    | none => .error (.indexError "list index out of range")
    | some outline =>
      let prompt := scriptGenerationPrompt (ragContextStr rc) (joinNl st.messages) outline
      let eff1 := { eff with llmCalls := eff.llmCalls + 1 }
      match env.llm prompt with
      | .error e => .error e
      | .ok resp =>
        let scr := match env.parseStructured resp with
          | some sc => env.scriptToJson sc
          | none => resp
        .ok ({ st with script := some scr,
                       messages := st.messages ++ [resp],
                       current_stage := "script_generation" }, eff1)

/-- The script `generate_tts` works from: structured parse first, fallback
parser second. -/
def scriptOf (env : Env) (s : String) : PodcastScript :=
  match env.parseStructured s with
  | some sc => sc
  | none => parse_unstructured_script s

/-- The synthesis loop of `generate_tts`: one TTS call per segment, with the
voice id looked up from the segment speaker; any failure is fatal. Returns
the clip durations in segment order. -/
def synthSegments (env : Env) (segs : List PodcastSegment) (eff : Effects) :
    Except Err (List Nat × Effects) :=
  match segs with
  | [] => .ok ([], eff)
  | seg :: rest =>
    let eff1 := { eff with ttsCalls := eff.ttsCalls + 1 }
    match env.tts seg.text (voiceLookup env seg.speaker) with
    | .error e => .error e
    | .ok clip =>
      match synthSegments env rest eff1 with
      | .error e => .error e
      | .ok (clips, eff2) => .ok (clip :: clips, eff2)

/-- The transient local artifact name `temp_podcast_<timestamp>.mp3`. -/
def tempFileName (env : Env) : String :=
  "temp_podcast_" ++ env.timestamp ++ ".mp3"

/-- The audit message appended when the upload publisher raises. -/
def uploadFailMsg (tempFile : String) : String :=
  "Warning: S3 upload failed. Podcast saved locally as " ++ tempFile

/-- `generate_tts`: a cache hit short-circuits to `complete`; otherwise a
truthy script is required (`if not state.script` raises for both `None`
and the empty string), which is parsed, synthesized per segment, assembled
with 500 ms silence appended after every clip, exported, uploaded, and
cached — the cache write and the `s3_url` assignment happen only when the
upload succeeds, while an upload exception is caught and turned into an
audit message. -/
def generate_tts (env : Env) (st : EnhancedGraphState) (eff : Effects) :
    Except Err (EnhancedGraphState × Effects) :=
  if (match st.cache_result with | some cr => cr.found | none => false) then
    .ok ({ st with current_stage := "complete" }, eff)
  else
    match st.script with
    | none => .error (.valueError "No script available for TTS generation.")
    | some s =>
      if s = "" then .error (.valueError "No script available for TTS generation.")
      else
      match synthSegments env (scriptOf env s).segments eff with
      | .error e => .error e
      | .ok (clips, eff1) =>
        let _combined := assembleCombinedDuration clips
        let temp_file := tempFileName env
        let eff2 := { eff1 with uploadCalls := eff1.uploadCalls + 1 }
        match env.upload temp_file st.topic st.pdf_title with
        | .ok url =>
          match st.rag_context with
          | none =>
            -- `state.rag_context.question` inside the `try` raises and is
            -- caught by the same handler as an upload failure.
            .ok ({ st with messages := st.messages ++ [uploadFailMsg temp_file],
                           current_stage := "complete" }, eff2)
          | some rc =>
            let bundle : CachedBundle :=
              ⟨st.topic, s, st.messages, st.pdf_title, url, rc.answer, rc.evidence⟩
            let eff3 := { eff2 with
              cachePuts := eff2.cachePuts ++ [(rc.question, st.pdf_title, bundle)] }
            .ok ({ st with
                     s3_url := some url,
                     messages := st.messages ++
                       ["Podcast audio generated and uploaded to S3: " ++ url],
                     current_stage := "complete" }, eff3)
        | .error _ =>
          .ok ({ st with messages := st.messages ++ [uploadFailMsg temp_file],
                         current_stage := "complete" }, eff2)

/-- The context f-string built by `generate_quiz` and `generate_flashcards`
before their `try` blocks. -/
def stageContextStr (rc : RAGContext) : String :=
  "\n        Question: " ++ rc.question ++ "\n        Answer: " ++ optStr rc.answer ++
    "\n        Evidence: " ++ joinSp rc.evidence ++ "\n        "

/-- `generate_quiz` graph node: the context string is built outside the
`try` (raising `AttributeError` when `rag_context` is absent); the quiz
generator call is wrapped, and on failure the quiz field is left empty
while the stage label is not advanced. -/
def generate_quiz (env : Env) (st : EnhancedGraphState) (eff : Effects) :
    Except Err (EnhancedGraphState × Effects) :=
  match st.rag_context with
  | none => .error (.attrError "NoneType object has no attribute question")
  | some rc =>
    let context := stageContextStr rc
    let eff1 := { eff with quizCalls := eff.quizCalls + 1 }
    match env.quizGen context st.topic 5 with
    | .ok qs => .ok ({ st with quiz := some qs, current_stage := "complete" }, eff1)
    | .error _ => .ok ({ st with quiz := none }, eff1)

/-- `generate_flashcards` graph node, same catch-and-degrade shape as the
quiz node. -/
def generate_flashcards (env : Env) (st : EnhancedGraphState) (eff : Effects) :
    Except Err (EnhancedGraphState × Effects) :=
  match st.rag_context with
  | none => .error (.attrError "NoneType object has no attribute question")
  | some rc =>
    let context := stageContextStr rc
    let eff1 := { eff with flashCalls := eff.flashCalls + 1 }
    match env.flashGen st.topic 5
        ("Use this context to generate accurate flashcards:\n" ++ context) with
    | .ok fs => .ok ({ st with flashcards := some fs, current_stage := "complete" }, eff1)
    | .error _ => .ok ({ st with flashcards := none }, eff1)

/-! ## The compiled graph and the entry points -/

/-- `graph.invoke` on the graph built by `create_graph`: START leads to
`route_content`; conditional edges on `output_type` select the podcast
(cache check first), flashcard, or quiz path; an unrecognized value has no
matching edge and the invocation fails. -/
def invokeGraph (env : Env) (st0 : EnhancedGraphState) (eff : Effects) :
    Except Err (EnhancedGraphState × Effects) :=
  let st := route_content st0
  if st.output_type = "podcast" then
    match check_cache env st eff with
    | .error e => .error e
    | .ok (st1, eff1) =>
      if route_from_cache st1 = "cached" then generate_tts env st1 eff1
      else
        match retrieve_context env st1 eff1 with
        | .error e => .error e
        | .ok (st2, eff2) =>
          match expand_topic env st2 eff2 with
          | .error e => .error e
          | .ok (st3, eff3) =>
            match generate_script env st3 eff3 with
            | .error e => .error e
            | .ok (st4, eff4) => generate_tts env st4 eff4
  else if st.output_type = "flashcards" then generate_flashcards env st eff
  else if st.output_type = "quiz" then generate_quiz env st eff
  else .error (.graphRouting st.output_type)

/-- The response dictionary assembled by `generate_podcast`. -/
structure PodcastResponse where
  topic : String
  script : Option String
  conversation_history : List String
  source_pdf : String
  s3_url : Option String
  cached : Bool
  rag_context : Option (Option String × List String)
deriving DecidableEq, Repr

/-- The dictionary construction at the end of `generate_podcast`; note that
the `rag_context` entry dereferences `final_state["cache_result"].found`
unconditionally. -/
def mkPodcastResponse (question pdf_title : String) (st : EnhancedGraphState) :
    Except Err PodcastResponse :=
  match st.cache_result with
  | none => .error (.attrError "NoneType object has no attribute found")
  | some cr =>
    if cr.found then
      .ok ⟨question, st.script, st.messages, pdf_title, st.s3_url, cr.found, none⟩
    else
      match st.rag_context with
      | none => .error (.attrError "NoneType object has no attribute answer")
      | some rc =>
        .ok ⟨question, st.script, st.messages, pdf_title, st.s3_url, cr.found,
             some (rc.answer, rc.evidence)⟩

/-- The initial state built by `generate_podcast`. -/
def initialPodcastState (question pdf_title : String) : EnhancedGraphState where
  messages := ["Create a podcast about: " ++ question]
  topic := question
  output_type := "podcast"
  rag_context := some ⟨question, pdf_title, none, []⟩
  pdf_title := some pdf_title
  cache_result := none
  s3_url := none
  flashcards := none
  quiz := none
  current_stage := "start"
  script := none

/-- `generate_podcast`: build the initial state, invoke the graph, assemble
the response; its `try` only reprints and re-raises, so errors propagate. -/
def generate_podcast (env : Env) (question pdf_title : String) (eff : Effects) :
    Except Err (PodcastResponse × Effects) :=
  match invokeGraph env (initialPodcastState question pdf_title) eff with
  | .error e => .error e
  | .ok (fs, eff1) =>
    match mkPodcastResponse question pdf_title fs with
    | .error e => .error e
    | .ok r => .ok (r, eff1)

/-- The initial state built by the quiz and flashcard branches of
`generate_content` (they differ only in the first transcript message). -/
def initialContentState (question pdf_title output_type : String)
    (resp : RagResponse) : EnhancedGraphState where
  messages := ["Create " ++ output_type ++ " about: " ++ question]
  topic := question
  output_type := output_type
  rag_context := some ⟨question, pdf_title, some resp.answer, resp.relevant_chunks⟩
  pdf_title := some pdf_title
  cache_result := none
  s3_url := none
  flashcards := none
  quiz := none
  current_stage := "start"
  script := none

/-- The response of the single entry point, per output type. -/
inductive ContentResponse where
  | podcast (r : PodcastResponse)
  | quizResp (topic : String) (quiz : String) (conversation_history : List String)
      (source_pdf : String) (rag_answer : String) (rag_evidence : List String)
  | flashcardsResp (topic : String) (cards : FlashcardSet)
      (conversation_history : List String) (source_pdf : String)
      (rag_answer : String) (rag_evidence : List String)
deriving DecidableEq, Repr

/-- `generate_content`, the boundary entry point: it queries the retrieval
collaborator first for EVERY output type, then branches — `"quiz"` and
`"flashcards"` run the graph and raise `ValueError` when the result field
came back empty; every other value falls into the `else` branch, which is
podcast generation. -/
def generate_content (env : Env) (question pdf_title output_type : String)
    (eff : Effects) : Except Err (ContentResponse × Effects) :=
  let eff0 := { eff with ragCalls := eff.ragCalls + 1 }
  match env.ragQuery question pdf_title with
  | .error e => .error e
  | .ok rag_response =>
    if output_type = "quiz" then
      match invokeGraph env (initialContentState question pdf_title output_type rag_response) eff0 with
      | .error e => .error e
      | .ok (fs, eff1) =>
        match fs.quiz with
        | none => .error (.valueError "No quiz was generated")
        | some qz =>
          .ok (.quizResp question (env.formatQuiz qz) fs.messages pdf_title
                rag_response.answer rag_response.relevant_chunks, eff1)
    else if output_type = "flashcards" then
      match invokeGraph env (initialContentState question pdf_title output_type rag_response) eff0 with
      | .error e => .error e
      | .ok (fs, eff1) =>
        match fs.flashcards with
        | none => .error (.valueError "No flashcards were generated")
        | some fset =>
          .ok (.flashcardsResp question fset fs.messages pdf_title
                rag_response.answer rag_response.relevant_chunks, eff1)
    else
      match generate_podcast env question pdf_title eff0 with
      | .error e => .error e
      | .ok (r, eff1) => .ok (.podcast r, eff1)

/-! ## Run projections and concrete fixtures used by the theorems -/

/-- Whether the entry point returned normally. -/
def contentIsOk : Except Err (ContentResponse × Effects) → Bool
  | .ok _ => true
  | .error _ => false

/-- Retrieval-call count of a finished entry-point run (0 on error). -/
def contentRagCalls : Except Err (ContentResponse × Effects) → Nat
  | .ok (_, e) => e.ragCalls
  | .error _ => 0

/-- Model-call count of a finished entry-point run (0 on error). -/
def contentLlmCalls : Except Err (ContentResponse × Effects) → Nat
  | .ok (_, e) => e.llmCalls
  | .error _ => 0

/-- TTS-call count of a finished entry-point run (0 on error). -/
def contentTtsCalls : Except Err (ContentResponse × Effects) → Nat
  | .ok (_, e) => e.ttsCalls
  | .error _ => 0

/-- Whether the run produced a podcast-shaped response. -/
def contentIsPodcast : Except Err (ContentResponse × Effects) → Bool
  | .ok (.podcast _, _) => true
  | _ => false

/-- The `s3_url` of a podcast-shaped response (`none` otherwise). -/
def contentS3 : Except Err (ContentResponse × Effects) → Option String
  | .ok (.podcast r, _) => r.s3_url
  | _ => none

/-- The `cached` flag of a podcast-shaped response (`false` otherwise). -/
def contentCached : Except Err (ContentResponse × Effects) → Bool
  | .ok (.podcast r, _) => r.cached
  | _ => false

/-- The `script` of a podcast-shaped response (`none` otherwise). -/
def contentScript : Except Err (ContentResponse × Effects) → Option String
  | .ok (.podcast r, _) => r.script
  | _ => none

/-- How many of the three result fields are populated. -/
def populatedCount (st : EnhancedGraphState) : Nat :=
  (if st.s3_url.isSome then 1 else 0) + (if st.flashcards.isSome then 1 else 0) +
    (if st.quiz.isSome then 1 else 0)

/-- Stage label of a finished graph invocation. -/
def runStage : Except Err (EnhancedGraphState × Effects) → Option String
  | .ok (st, _) => some st.current_stage
  | .error _ => none

/-- Populated-field count of a finished graph invocation (0 on error). -/
def runPop : Except Err (EnhancedGraphState × Effects) → Nat
  | .ok (st, _) => populatedCount st
  | .error _ => 0

/-- Whether the final state has a published audio location. -/
def runS3IsSome : Except Err (EnhancedGraphState × Effects) → Bool
  | .ok (st, _) => st.s3_url.isSome
  | .error _ => false

/-- Whether the final state has a flashcard set. -/
def runFlashIsSome : Except Err (EnhancedGraphState × Effects) → Bool
  | .ok (st, _) => st.flashcards.isSome
  | .error _ => false

/-- Whether the final state has a quiz. -/
def runQuizIsSome : Except Err (EnhancedGraphState × Effects) → Bool
  | .ok (st, _) => st.quiz.isSome
  | .error _ => false

/-- A cached bundle as written by an earlier successful publish-succeeding
run for the key `("q", "doc")`. -/
def bundleA : CachedBundle :=
  ⟨"q", "Speaker 1: cached line", ["m1"], some "doc", "https://bucket/cached.mp3",
   some "ans", ["ev1"]⟩

/-- A collaborator environment in which every external call succeeds and the
cache is empty. -/
def baseEnv : Env where
  cacheGet := fun _ _ => none
  ragQuery := fun _ _ => .ok ⟨"ans", ["ev1", "ev2"]⟩
  llm := fun _ => .ok "Speaker 1: Hello there\nSpeaker 2: Hi"
  tts := fun _ _ => .ok 1000
  upload := fun _ _ _ => .ok "https://bucket/new.mp3"
  quizGen := fun _ _ _ => .ok ⟨"quizdata"⟩
  flashGen := fun _ _ _ => .ok ⟨"cards", [⟨"front", "back", none⟩]⟩
  formatQuiz := fun q => q.raw
  parseStructured := fun _ => none
  scriptToJson := fun _ => ""
  voice1 := "voiceA"
  voice2 := "voiceB"
  timestamp := "20241201_120000"

/-- `baseEnv` with the key `("q", "doc")` already cached. -/
def envHit : Env :=
  { baseEnv with cacheGet := fun q t => if q = "q" && t = "doc" then some bundleA else none }

/-- `baseEnv` with an upload publisher that raises. -/
def envUpFail : Env :=
  { baseEnv with upload := fun _ _ _ => .error (.collaborator "S3 upload failed") }

/-- `baseEnv` with a quiz generator that raises. -/
def envQuizFail : Env :=
  { baseEnv with quizGen := fun _ _ _ => .error (.collaborator "quiz generator failure") }

/-- Modelled from the spec: the claim C7 description of the fallback line
attribution, in which a role-prefixed line has (only) its leading prefix
stripped, rather than every occurrence removed. Used solely to compare the
spec wording with the source behaviour. -/
def specParseLine (line : List Char) : Option PodcastSegment :=
  if trimChars line = [] then none
  else if startsWithL sp1 line then
    some ⟨"Speaker 1", String.mk (trimChars (line.drop sp1.length)), none⟩
  else if startsWithL sp2 line then
    some ⟨"Speaker 2", String.mk (trimChars (line.drop sp2.length)), none⟩
  else
    some ⟨"Speaker 1", String.mk (trimChars line), none⟩

/-- Modelled from the spec: the fallback parser as described by claim C7. -/
def specFallbackParse (t : String) : PodcastScript :=
  ⟨(splitLines t.data).filterMap specParseLine⟩

/-- The natural reading of "well-formed prefixed line form": every line is
blank or begins with one of the two role markers. -/
def linePrefixed (l : List Char) : Bool :=
  (trimChars l == []) || startsWithL sp1 l || startsWithL sp2 l

/-- A text in well-formed prefixed line form (naive reading). -/
def wellFormedPrefixed (t : String) : Bool :=
  (splitLines t.data).all linePrefixed

/-- The strengthened line form under which the round trip is provable:
after the leading role marker, the rest of the line contains no further
occurrence of that same marker (ruling out `str.replace` reassembling a
new marker out of the removed pieces). -/
def lineStrict (l : List Char) : Bool :=
  if trimChars l = [] then true
  else if startsWithL sp1 l then !containsSub sp1 (l.drop sp1.length)
  else if startsWithL sp2 l then !containsSub sp2 (l.drop sp2.length)
  else false

/-- A text in strictly well-formed prefixed line form. -/
def strictWellFormed (t : String) : Bool :=
  (splitLines t.data).all lineStrict

/-- One rendered line `"<speaker>: <text>"` of a script (the rendering
used to state the round-trip property of the spec). -/
def lineOfSeg (seg : PodcastSegment) : List Char :=
  seg.speaker.data ++ ':' :: ' ' :: seg.text.data

/-- The properties every segment produced by the fallback parser from a
strictly well-formed text enjoys: a recognized speaker whose own marker
does not occur in the text, the text already stripped and newline-free,
and no expression annotation. -/
def segGood (seg : PodcastSegment) : Prop :=
  ((seg.speaker = "Speaker 1" ∧ containsSub sp1 seg.text.data = false)
    ∨ (seg.speaker = "Speaker 2" ∧ containsSub sp2 seg.text.data = false))
  ∧ trimChars seg.text.data = seg.text.data
  ∧ '
' ∉ seg.text.data
  ∧ seg.expression = none

/-- A state whose retrieval context is absent, for the C10 witness. -/
def stNoRag : EnhancedGraphState :=
  { initialPodcastState "q" "doc" with rag_context := none }

/-- A generated (not cached) state with a pending script, for the C2 and
C9 witnesses. -/
def stPending : EnhancedGraphState :=
  { initialPodcastState "q" "doc" with
      cache_result := some ⟨false, none⟩, script := some "Speaker 1: hi" }

/-! ## Helper lemmas -/

/-- The loop body of the fallback parser skips exactly the blank lines. -/
lemma parseLine_eq_none {l : List Char} : parseLine l = none ↔ trimChars l = [] := by
  constructor
  · intro h
    unfold parseLine at h
    split at h
    · assumption
    · split at h
      · simp at h
      · split at h
        · simp at h
        · simp at h
  · intro h0
    unfold parseLine
    rw [if_pos h0]

/-- Every produced segment count equals the count of non-blank lines. -/
lemma filterMap_parseLine_length (ls : List (List Char)) :
    (ls.filterMap parseLine).length = (ls.filter (fun l => trimChars l != [])).length := by
  induction ls with
  | nil => rfl
  | cons l ls ih =>
    cases hpl : parseLine l with
    | none =>
      have h0 : trimChars l = [] := parseLine_eq_none.mp hpl
      simp [List.filterMap_cons, List.filter_cons, hpl, h0, ih]
    | some seg =>
      have h0 : trimChars l ≠ [] := by
        intro htrim
        rw [parseLine_eq_none.mpr htrim] at hpl
        cases hpl
      simp [List.filterMap_cons, List.filter_cons, hpl, h0, ih]

/-! ## Claim C5 -/

/-- Claim C5 counterexample: for a single clip of 1000 ms the assembled
duration is 1500 ms, not the sum plus 500 ms times (n - 1) = 1000 ms, so
the 500 ms silence is NOT inserted only between consecutive clips. -/
theorem c5_assembly_counterexample :
    assembleCombinedDuration [1000] ≠ [1000].sum + 500 * ([1000].length - 1) := by
  decide

/-- Claim C5 amended: the assembly loop appends 500 ms of silence after
EVERY clip, including the last, so the combined duration equals the sum of
the clip durations plus 500 ms times the number of clips. -/
theorem c5_assembly_amended (clips : List Nat) :
    assembleCombinedDuration clips = clips.sum + 500 * clips.length := by
  have key : ∀ (l : List Nat) (a : Nat),
      l.foldl (fun acc d => acc + (d + 500)) a = a + l.sum + 500 * l.length := by
    intro l
    induction l with
    | nil => intro a; simp
    | cons d l ih =>
      intro a
      simp only [List.foldl_cons, List.sum_cons, List.length_cons, ih]
      ring
  simpa [assembleCombinedDuration] using key clips 0

/-! ## Claim C6 -/

/-- Claim C6 counterexample: the whitespace-only input `" "` is a non-empty
string on which the fallback parser returns a script with zero segments. -/
theorem c6_fallback_counterexample :
    " " ≠ "" ∧ (parse_unstructured_script " ").segments = [] := by
  exact ⟨by decide, by decide⟩

/-- Claim C6 amended: on every input with at least one non-blank line, the
fallback parser returns at least one segment (and, being a total function
of the embedded loop, it never raises). -/
theorem c6_fallback_amended (t : String)
    (h : ∃ l ∈ splitLines t.data, trimChars l ≠ []) :
    (parse_unstructured_script t).segments ≠ [] := by
  obtain ⟨l, hl, hne⟩ := h
  intro hnil
  have hnone : parseLine l = none := by
    have := List.filterMap_eq_nil_iff.mp hnil
    exact this l hl
  exact hne (parseLine_eq_none.mp hnone)

/-- Claim C6 witness at the concrete input `"hi"`. -/
theorem c6_fallback_witness : (parse_unstructured_script "hi").segments ≠ [] :=
  c6_fallback_amended "hi" (by decide)

/-! ## Claim C7 -/

/-- Claim C7 counterexample: on the line `"Speaker 1:a Speaker 1:b"` the
source removes EVERY occurrence of the matched marker (Python
`str.replace`), producing the text `"a b"`, while the claim description
(leading prefix stripped) would keep `"a Speaker 1:b"`. -/
theorem c7_attribution_counterexample :
    parse_unstructured_script "Speaker 1:a Speaker 1:b"
        ≠ specFallbackParse "Speaker 1:a Speaker 1:b"
    ∧ (parse_unstructured_script "Speaker 1:a Speaker 1:b").segments
        = [⟨"Speaker 1", "a b", none⟩]
    ∧ (specFallbackParse "Speaker 1:a Speaker 1:b").segments
        = [⟨"Speaker 1", "a Speaker 1:b", none⟩] := by
  exact ⟨by decide, by decide, by decide⟩

/-- Claim C7 amended: the fallback parser drops blank (whitespace-only)
lines and attributes prefixed lines to the matching role with every
occurrence of that marker removed and whitespace stripped, and any other
line to Speaker 1; the spec example parses to exactly the two stated
segments, every produced speaker is one of the two roles, and the segment
count equals the number of non-blank lines. -/
theorem c7_attribution_amended :
    (parse_unstructured_script
        "Speaker 1: Hello there\nSpeaker 2: Hi, umm, great question").segments
      = [⟨"Speaker 1", "Hello there", none⟩, ⟨"Speaker 2", "Hi, umm, great question", none⟩]
    ∧ (∀ t : String, ∀ seg ∈ (parse_unstructured_script t).segments,
        seg.speaker = "Speaker 1" ∨ seg.speaker = "Speaker 2")
    ∧ (∀ t : String, (parse_unstructured_script t).segments.length
        = ((splitLines t.data).filter (fun l => trimChars l != [])).length) := by
  refine ⟨by decide, ?_, ?_⟩
  · intro t seg hmem
    have : ∃ l, l ∈ splitLines t.data ∧ parseLine l = some seg := by
      simpa [parse_unstructured_script, List.mem_filterMap] using hmem
    obtain ⟨l, _, hpl⟩ := this
    unfold parseLine at hpl
    split at hpl
    · simp at hpl
    · split at hpl
      · left; cases hpl; rfl
      · split at hpl
        · right; cases hpl; rfl
        · left; cases hpl; rfl
  · intro t
    simpa [parse_unstructured_script] using
      filterMap_parseLine_length (splitLines t.data)

/-- Claim C7 witness: the membership part applied at a concrete segment of
a concrete parse. -/
theorem c7_attribution_witness :
    (⟨"Speaker 1", "hi", none⟩ : PodcastSegment).speaker = "Speaker 1"
    ∨ (⟨"Speaker 1", "hi", none⟩ : PodcastSegment).speaker = "Speaker 2" :=
  c7_attribution_amended.2.1 "hi" ⟨"Speaker 1", "hi", none⟩ (by decide)

/-! ## Claim C10 -/

/-- Claim C10: with a retrieval context present, the quiz and flashcard
stages always return normally (context construction cannot raise and the
generator call is wrapped); with the context absent, both raise an
uncaught `AttributeError` that bypasses the catch-and-degrade path. -/
theorem c10_context_precondition (env : Env) (st1 st2 : EnhancedGraphState)
    (eff : Effects) (rc : RAGContext)
    (h1 : st1.rag_context = some rc) (h2 : st2.rag_context = none) :
    (∃ r, generate_quiz env st1 eff = .ok r)
    ∧ (∃ r, generate_flashcards env st1 eff = .ok r)
    ∧ generate_quiz env st2 eff
        = .error (.attrError "NoneType object has no attribute question")
    ∧ generate_flashcards env st2 eff
        = .error (.attrError "NoneType object has no attribute question") := by
  refine ⟨?_, ?_, ?_, ?_⟩
  · unfold generate_quiz
    rw [h1]
    cases h : env.quizGen (stageContextStr rc) st1.topic 5 with
    | ok qs => simp only [h]; exact ⟨_, rfl⟩
    | error e => simp only [h]; exact ⟨_, rfl⟩
  · unfold generate_flashcards
    rw [h1]
    cases h : env.flashGen st1.topic 5
        ("Use this context to generate accurate flashcards:\n" ++ stageContextStr rc) with
    | ok fs => simp only [h]; exact ⟨_, rfl⟩
    | error e => simp only [h]; exact ⟨_, rfl⟩
  · unfold generate_quiz
    rw [h2]
  · unfold generate_flashcards
    rw [h2]

/-! ## Claim C1 -/

/-- Claim C1 counterexample: with the key already cached, the second run
does return the cached bundle (cached flag set, cached audio location) —
but the retrieval collaborator IS invoked (once, by the entry point before
routing), so the run is not free of retrieval calls as claimed. -/
theorem c1_cache_counterexample :
    contentCached (generate_content envHit "q" "doc" "podcast" initEffects) = true
    ∧ contentS3 (generate_content envHit "q" "doc" "podcast" initEffects)
        = some bundleA.s3_url
    ∧ contentRagCalls (generate_content envHit "q" "doc" "podcast" initEffects) ≠ 0 := by
  exact ⟨rfl, rfl, by decide⟩

/-- Claim C1 amended: with the key cached, the second podcast request
returns the cached bundle (audio location and script from the cached
payload), reaches the terminal `complete` stage, and invokes neither the
language model nor the TTS nor the upload collaborators and writes no
cache entry — but the entry point still performs exactly one retrieval
query before routing. -/
theorem c1_cache_amended (env : Env) (q t : String) (bundle : CachedBundle)
    (r : RagResponse) (eff : Effects)
    (hc : env.cacheGet q t = some bundle)
    (hr : env.ragQuery q t = .ok r) :
    ∃ resp eff1, generate_content env q t "podcast" eff = .ok (.podcast resp, eff1)
      ∧ resp.s3_url = some bundle.s3_url
      ∧ resp.script = some bundle.script
      ∧ resp.cached = true
      ∧ eff1.llmCalls = eff.llmCalls
      ∧ eff1.ttsCalls = eff.ttsCalls
      ∧ eff1.uploadCalls = eff.uploadCalls
      ∧ eff1.cachePuts = eff.cachePuts
      ∧ eff1.ragCalls = eff.ragCalls + 1
      ∧ runStage (invokeGraph env (initialPodcastState q t)
          { eff with ragCalls := eff.ragCalls + 1 }) = some "complete" := by
  have hgraph : invokeGraph env (initialPodcastState q t)
        { eff with ragCalls := eff.ragCalls + 1 }
      = .ok ({ messages := ["Create a podcast about: " ++ q] ++
                 ["Retrieved cached podcast: " ++ bundle.s3_url],
               topic := q, output_type := "podcast",
               rag_context := some ⟨q, t, none, []⟩,
               pdf_title := some t,
               cache_result := some ⟨true, some bundle⟩,
               s3_url := some bundle.s3_url, flashcards := none, quiz := none,
               current_stage := "complete", script := some bundle.script },
             { eff with ragCalls := eff.ragCalls + 1 }) := by
    unfold invokeGraph
    simp +decide only [if_pos]
    unfold check_cache route_content initialPodcastState
    simp only [hc]
    simp +decide [route_from_cache, generate_tts]
  refine ⟨⟨q, some bundle.script,
      ["Create a podcast about: " ++ q, "Retrieved cached podcast: " ++ bundle.s3_url],
      t, some bundle.s3_url, true, none⟩,
    { eff with ragCalls := eff.ragCalls + 1 },
    ?_, rfl, rfl, rfl, rfl, rfl, rfl, rfl, rfl, ?_⟩
  · unfold generate_content
    rw [hr]
    simp +decide only [if_neg]
    unfold generate_podcast
    rw [hgraph]
    rfl
  · rw [hgraph]
    rfl

/-- Claim C1 witness: the amended theorem at the concrete cached
environment. -/
theorem c1_cache_witness :
    ∃ resp eff1,
      generate_content envHit "q" "doc" "podcast" initEffects = .ok (.podcast resp, eff1)
      ∧ resp.s3_url = some bundleA.s3_url
      ∧ resp.script = some bundleA.script
      ∧ resp.cached = true
      ∧ eff1.llmCalls = initEffects.llmCalls
      ∧ eff1.ttsCalls = initEffects.ttsCalls
      ∧ eff1.uploadCalls = initEffects.uploadCalls
      ∧ eff1.cachePuts = initEffects.cachePuts
      ∧ eff1.ragCalls = initEffects.ragCalls + 1
      ∧ runStage (invokeGraph envHit (initialPodcastState "q" "doc")
          { initEffects with ragCalls := initEffects.ragCalls + 1 }) = some "complete" :=
  c1_cache_amended envHit "q" "doc" bundleA ⟨"ans", ["ev1", "ev2"]⟩ initEffects rfl rfl

/-! ## Claim C2 -/

/-- Through every successful synthesis run, the effect log's cache-write
list is unchanged. -/
lemma synthSegments_cachePuts (env : Env) :
    ∀ (segs : List PodcastSegment) (eff : Effects) (clips : List Nat) (eff1 : Effects),
      synthSegments env segs eff = .ok (clips, eff1) → eff1.cachePuts = eff.cachePuts := by
  intro segs
  induction segs with
  | nil =>
    intro eff clips eff1 h
    unfold synthSegments at h
    simp only [Except.ok.injEq, Prod.mk.injEq] at h
    rw [← h.2]
  | cons seg rest ih =>
    intro eff clips eff1 h
    unfold synthSegments at h
    cases htts : env.tts seg.text (voiceLookup env seg.speaker) with
    | error e => rw [htts] at h; cases h
    | ok clip =>
      rw [htts] at h
      dsimp only at h
      cases hrec : synthSegments env rest { eff with ttsCalls := eff.ttsCalls + 1 } with
      | error e => rw [hrec] at h; cases h
      | ok p =>
        rw [hrec] at h
        obtain ⟨clips2, eff2⟩ := p
        simp only [Except.ok.injEq, Prod.mk.injEq] at h
        rw [← h.2]
        exact ih { eff with ttsCalls := eff.ttsCalls + 1 } clips2 eff2 hrec

/-- Claim C2: when the upload publisher raises after a successful
synthesis of a (truthy, hence non-empty) script, the TTS stage still
returns normally with the stage marked `complete`, the warning message
naming the transient local file is appended to the transcript, the
published audio location stays unset, and no cache entry is written. -/
theorem c2_upload_failure (env : Env) (st : EnhancedGraphState)
    (eff eff1 : Effects) (s : String) (clips : List Nat) (e : Err)
    (hcr : st.cache_result = some ⟨false, none⟩)
    (hs : st.script = some s)
    (hs0 : s ≠ "")
    (hurl : st.s3_url = none)
    (hsyn : synthSegments env (scriptOf env s).segments eff = .ok (clips, eff1))
    (hup : env.upload (tempFileName env) st.topic st.pdf_title = .error e) :
    generate_tts env st eff
      = .ok ({ st with messages := st.messages ++ [uploadFailMsg (tempFileName env)],
                       current_stage := "complete" },
             { eff1 with uploadCalls := eff1.uploadCalls + 1 })
    ∧ ({ st with messages := st.messages ++ [uploadFailMsg (tempFileName env)],
                 current_stage := "complete" } : EnhancedGraphState).s3_url = none
    ∧ eff1.cachePuts = eff.cachePuts := by
  refine ⟨?_, by simp [hurl], synthSegments_cachePuts env _ _ _ _ hsyn⟩
  unfold generate_tts
  rw [hcr, hs]
  dsimp only
  rw [if_neg hs0]
  simp only [hsyn]
  rw [hup]
  rfl

/-- Claim C2 witness: the theorem at a concrete state and a concrete
failing upload publisher. -/
theorem c2_upload_failure_witness :
    runStage (generate_tts envUpFail stPending initEffects) = some "complete" := by
  have h := c2_upload_failure envUpFail stPending initEffects
    ⟨0, 0, 1, 0, 0, 0, []⟩ "Speaker 1: hi" [1000]
    (.collaborator "S3 upload failed") rfl rfl (by decide) rfl rfl rfl
  rw [h.1]
  rfl

/-! ## Claim C3 -/

/-- Claim C3 counterexample: the unrecognized output type `"summary"` does
NOT fail with a validation error — the entry point invokes the retrieval
collaborator first and then silently runs the podcast branch to a
successful podcast-shaped response. -/
theorem c3_routing_counterexample :
    contentIsOk (generate_content baseEnv "q" "doc" "summary" initEffects) = true
    ∧ contentIsPodcast (generate_content baseEnv "q" "doc" "summary" initEffects) = true
    ∧ contentRagCalls (generate_content baseEnv "q" "doc" "summary" initEffects) ≠ 0 := by
  exact ⟨rfl, rfl, by decide⟩

/-- Claim C3 amended: any output type other than `"quiz"` and
`"flashcards"` (in particular `"summary"`) is treated exactly like
`"podcast"` by the entry point: retrieval is invoked first and podcast
generation runs; no validation error is raised. -/
theorem c3_routing_amended (env : Env) (q t o : String) (eff : Effects)
    (h1 : o ≠ "quiz") (h2 : o ≠ "flashcards") :
    generate_content env q t o eff = generate_content env q t "podcast" eff := by
  unfold generate_content
  cases henv : env.ragQuery q t with
  | error e => rfl
  | ok r => simp +decide [h1, h2]

/-- Claim C3 witness: the amended theorem applied at `"summary"`. -/
theorem c3_routing_witness :
    generate_content baseEnv "q" "doc" "summary" initEffects
      = generate_content baseEnv "q" "doc" "podcast" initEffects :=
  c3_routing_amended baseEnv "q" "doc" "summary" initEffects (by decide) (by decide)

/-! ## Claim C4 -/

/-- Claim C4 counterexample: when the quiz generator raises, the entry
point does NOT return a successful response with an empty quiz — it raises
`ValueError("No quiz was generated")` to the caller. -/
theorem c4_quiz_counterexample :
    generate_content envQuizFail "q" "doc" "quiz" initEffects
      = .error (.valueError "No quiz was generated") := by
  rfl

/-- Claim C4 amended: the graph node catches the quiz generator failure
and leaves the quiz field empty, but the entry point then detects the
empty field and raises `ValueError("No quiz was generated")`, so an
exception does propagate to the caller. -/
theorem c4_quiz_amended (env : Env) (q t : String) (eff : Effects)
    (r : RagResponse) (e : Err)
    (hr : env.ragQuery q t = .ok r)
    (hq : ∀ c qq n, env.quizGen c qq n = .error e) :
    generate_content env q t "quiz" eff = .error (.valueError "No quiz was generated")
    ∧ (∀ (st : EnhancedGraphState) (eff2 : Effects) (rc : RAGContext),
        st.rag_context = some rc →
        generate_quiz env st eff2 = .ok ({ st with quiz := none },
          { eff2 with quizCalls := eff2.quizCalls + 1 })) := by
  constructor
  · unfold generate_content
    rw [hr]
    simp +decide only [if_pos]
    unfold invokeGraph route_content initialContentState
    simp +decide only [if_neg, if_pos]
    unfold generate_quiz
    simp only [hq]
  · intro st eff2 rc hrc
    unfold generate_quiz
    rw [hrc]
    simp only [hq]

/-- Claim C4 witness: the amended theorem at the concrete failing
environment, with the node-level part instantiated at a concrete state. -/
theorem c4_quiz_witness :
    generate_content envQuizFail "q" "doc" "quiz" initEffects
      = .error (.valueError "No quiz was generated")
    ∧ generate_quiz envQuizFail (initialPodcastState "q" "doc") initEffects
        = .ok ({ initialPodcastState "q" "doc" with quiz := none },
               { initEffects with quizCalls := initEffects.quizCalls + 1 }) :=
  ⟨(c4_quiz_amended envQuizFail "q" "doc" initEffects ⟨"ans", ["ev1", "ev2"]⟩
      (.collaborator "quiz generator failure") rfl (fun _ _ _ => rfl)).1,
   (c4_quiz_amended envQuizFail "q" "doc" initEffects ⟨"ans", ["ev1", "ev2"]⟩
      (.collaborator "quiz generator failure") rfl (fun _ _ _ => rfl)).2
     (initialPodcastState "q" "doc") initEffects ⟨"q", "doc", none, []⟩ rfl⟩

/-! ## Claim C8 -/

/-! ### Helper lemmas for the claim C8 round trip -/

lemma dropWhile_head_not (p : Char → Bool) :
    ∀ (l : List Char) (c : Char) (cs : List Char),
      l.dropWhile p = c :: cs → p c = false := by
  intro l
  induction l with
  | nil => intro c cs h; cases h
  | cons a as ih =>
    intro c cs h
    by_cases hp : p a = true
    · rw [List.dropWhile_cons, if_pos hp] at h
      exact ih c cs h
    · rw [List.dropWhile_cons, if_neg hp] at h
      cases h
      exact Bool.eq_false_iff.mpr hp

lemma dropTrailingWs_cons (c : Char) (cs : List Char) :
    dropTrailingWs (c :: cs) =
      if (decide (dropTrailingWs cs = []) && isWsChar c) = true then []
      else c :: dropTrailingWs cs := by
  conv_lhs => unfold dropTrailingWs

lemma dropTrailingWs_shape (c : Char) (cs : List Char) :
    dropTrailingWs (c :: cs) = [] ∨ dropTrailingWs (c :: cs) = c :: dropTrailingWs cs := by
  rw [dropTrailingWs_cons]
  split
  · exact Or.inl rfl
  · exact Or.inr rfl

lemma dropTrailingWs_eq_nil_head (c : Char) (cs : List Char)
    (h : dropTrailingWs (c :: cs) = []) : isWsChar c = true := by
  rw [dropTrailingWs_cons] at h
  split at h
  · rename_i hcond
    exact (Bool.and_eq_true _ _ |>.mp hcond).2
  · cases h

lemma dropTrailingWs_idem : ∀ (l : List Char),
    dropTrailingWs (dropTrailingWs l) = dropTrailingWs l := by
  intro l
  induction l with
  | nil => rfl
  | cons c cs ih =>
    rcases dropTrailingWs_shape c cs with h | h
    · rw [h]; rfl
    · rw [h]
      rw [dropTrailingWs_cons, ih]
      by_cases hnil : dropTrailingWs cs = []
      · rw [hnil] at h ⊢
        have : isWsChar c = false := by
          by_contra hws
          have hws2 : isWsChar c = true := by
            cases hc2 : isWsChar c
            · exact absurd hc2 hws
            · rfl
          rw [dropTrailingWs_cons, hnil] at h
          simp [hws2] at h
        simp [this]
      · simp [hnil]

lemma trimChars_idem (l : List Char) : trimChars (trimChars l) = trimChars l := by
  cases hdw : List.dropWhile isWsChar l with
  | nil =>
    unfold trimChars
    rw [hdw]
    rfl
  | cons c cs =>
    have hc : isWsChar c = false := dropWhile_head_not isWsChar l c cs hdw
    unfold trimChars
    rw [hdw]
    rcases dropTrailingWs_shape c cs with h | h
    · rw [h]; rfl
    · rw [h]
      rw [List.dropWhile_cons, if_neg (by simp [hc])]
      rw [dropTrailingWs_cons, dropTrailingWs_idem]
      simp [hc]

lemma trimChars_cons_ws (c : Char) (l : List Char) (h : isWsChar c = true) :
    trimChars (c :: l) = trimChars l := by
  unfold trimChars
  rw [List.dropWhile_cons, if_pos (by simp [h])]

lemma trimChars_cons_not_ws (c : Char) (l : List Char) (h : isWsChar c = false) :
    trimChars (c :: l) = c :: dropTrailingWs l := by
  unfold trimChars
  rw [List.dropWhile_cons, if_neg (by simp [h])]
  rw [dropTrailingWs_cons]
  simp [h]

lemma trimChars_ne_nil_not_ws (c : Char) (l : List Char) (h : isWsChar c = false) :
    trimChars (c :: l) ≠ [] := by
  rw [trimChars_cons_not_ws c l h]
  simp

lemma mem_dropTrailingWs {a : Char} : ∀ {l : List Char}, a ∈ dropTrailingWs l → a ∈ l := by
  intro l
  induction l with
  | nil => intro h; simp [dropTrailingWs] at h
  | cons c cs ih =>
    intro h
    rcases dropTrailingWs_shape c cs with h2 | h2
    · rw [h2] at h; simp at h
    · rw [h2] at h
      rcases List.mem_cons.mp h with h3 | h3
      · simp [h3]
      · exact List.mem_cons_of_mem c (ih h3)

lemma mem_trimChars {a : Char} {l : List Char} (h : a ∈ trimChars l) : a ∈ l := by
  unfold trimChars at h
  have h2 := mem_dropTrailingWs h
  exact (List.dropWhile_sublist isWsChar).mem h2

lemma dropTrailingWs_prefix : ∀ (l : List Char), ∃ s, l = dropTrailingWs l ++ s := by
  intro l
  induction l with
  | nil => exact ⟨[], rfl⟩
  | cons c cs ih =>
    rcases dropTrailingWs_shape c cs with h | h
    · exact ⟨c :: cs, by rw [h]; rfl⟩
    · obtain ⟨s, hs⟩ := ih
      refine ⟨s, ?_⟩
      rw [h, List.cons_append, ← hs]

lemma startsWithL_append_self : ∀ (pat rest : List Char),
    startsWithL pat (pat ++ rest) = true := by
  intro pat
  induction pat with
  | nil => intro rest; rfl
  | cons p ps ih =>
    intro rest
    simp [startsWithL, ih]

lemma startsWithL_drop : ∀ (pat l : List Char),
    startsWithL pat l = true → l = pat ++ l.drop pat.length := by
  intro pat
  induction pat with
  | nil => intro l _; simp
  | cons p ps ih =>
    intro l h
    cases l with
    | nil => cases h
    | cons c cs =>
      unfold startsWithL at h
      rcases Bool.and_eq_true _ _ |>.mp h with ⟨h1, h2⟩
      have hpc : p = c := by simpa using h1
      subst hpc
      have hrec := ih cs h2
      simp only [List.length_cons, List.drop_succ_cons, List.cons_append]
      rw [← hrec]

lemma startsWithL_append_of (pat : List Char) :
    ∀ (l s : List Char), startsWithL pat l = true → startsWithL pat (l ++ s) = true := by
  induction pat with
  | nil => intro l s _; cases l <;> rfl
  | cons p ps ih =>
    intro l s h
    cases l with
    | nil => cases h
    | cons c cs =>
      unfold startsWithL at h ⊢
      rcases Bool.and_eq_true _ _ |>.mp h with ⟨h1, h2⟩
      rw [List.cons_append]
      simp only [h1, Bool.true_and] at *
      exact ih cs s h2

lemma containsSub_cons (pat : List Char) (c : Char) (cs : List Char) :
    containsSub pat (c :: cs) = (startsWithL pat (c :: cs) || containsSub pat cs) := rfl

lemma containsSub_of_dropWhile (pat : List Char) (p : Char → Bool) :
    ∀ (l : List Char), containsSub pat (l.dropWhile p) = true → containsSub pat l = true := by
  intro l
  induction l with
  | nil => intro h; simpa using h
  | cons c cs ih =>
    intro h
    rw [List.dropWhile_cons] at h
    split at h
    · rw [containsSub_cons]
      simp [ih h]
    · exact h

lemma containsSub_append_right (pat : List Char) :
    ∀ (r s : List Char), containsSub pat r = true → containsSub pat (r ++ s) = true := by
  intro r
  induction r with
  | nil =>
    intro s h
    unfold containsSub at h
    cases pat with
    | nil =>
      cases s with
      | nil => exact h
      | cons a as => rfl
    | cons p ps => cases h
  | cons c cs ih =>
    intro s h
    rw [containsSub_cons] at h
    rw [List.cons_append, containsSub_cons]
    rcases Bool.or_eq_true _ _ |>.mp h with h1 | h1
    · have hsw : startsWithL pat ((c :: cs) ++ s) = true :=
        startsWithL_append_of pat (c :: cs) s h1
      rw [List.cons_append] at hsw
      simp [hsw]
    · simp [ih s h1]

lemma containsSub_trimChars (pat l : List Char)
    (h : containsSub pat l = false) : containsSub pat (trimChars l) = false := by
  by_contra h2
  have h3 : containsSub pat (trimChars l) = true := by
    cases hc : containsSub pat (trimChars l)
    · exact absurd hc h2
    · rfl
  unfold trimChars at h3
  obtain ⟨s, hs⟩ := dropTrailingWs_prefix (List.dropWhile isWsChar l)
  have h4 : containsSub pat (List.dropWhile isWsChar l) = true := by
    rw [hs]
    exact containsSub_append_right pat _ s h3
  rw [containsSub_of_dropWhile pat isWsChar l h4] at h
  cases h

lemma removeAllAux_no_match (pat : List Char) :
    ∀ (l : List Char) (fuel : Nat), containsSub pat l = false →
      removeAllAux pat fuel l = l := by
  intro l
  induction l with
  | nil => intro fuel _; cases fuel <;> rfl
  | cons c cs ih =>
    intro fuel h
    rw [containsSub_cons] at h
    rcases Bool.or_eq_false_iff.mp h with ⟨h1, h2⟩
    cases fuel with
    | zero => rfl
    | succ f =>
      unfold removeAllAux
      rw [if_neg (by simp [h1])]
      rw [ih f h2]

lemma removeAllAux_succ_cons (pat : List Char) (fuel : Nat) (c : Char) (cs : List Char) :
    removeAllAux pat (fuel + 1) (c :: cs) =
      if startsWithL pat (c :: cs) = true then
        removeAllAux pat fuel ((c :: cs).drop pat.length)
      else c :: removeAllAux pat fuel cs := rfl

lemma removeAllAux_leading (pat : List Char) (rest : List Char) (fuel : Nat)
    (hpat : pat ≠ []) (hrest : containsSub pat rest = false)
    (hfuel : pat.length + rest.length ≤ fuel + 1) :
    removeAllAux pat (fuel + 1) (pat ++ rest) = rest := by
  cases pat with
  | nil => exact absurd rfl hpat
  | cons p ps =>
    rw [List.cons_append, removeAllAux_succ_cons]
    rw [if_pos (by rw [← List.cons_append]; exact startsWithL_append_self (p :: ps) rest)]
    have hdrop : (p :: (ps ++ rest)).drop (p :: ps).length = rest := by
      rw [← List.cons_append]
      simp
    rw [hdrop]
    exact removeAllAux_no_match (p :: ps) rest fuel hrest

lemma removeAll_leading (pat rest : List Char)
    (hpat : pat ≠ []) (hrest : containsSub pat rest = false) :
    removeAll pat (pat ++ rest) = rest := by
  unfold removeAll
  have hlen : (pat ++ rest).length = (pat.length - 1 + rest.length) + 1 := by
    cases pat with
    | nil => exact absurd rfl hpat
    | cons p ps =>
      simp [List.length_append]
  rw [hlen]
  apply removeAllAux_leading pat rest _ hpat hrest
  cases pat with
  | nil => exact absurd rfl hpat
  | cons p ps =>
    simp [List.length_append]
    omega

lemma splitLinesAux_nil (acc : List Char) : splitLinesAux acc [] = [acc.reverse] := rfl

lemma splitLinesAux_cons (acc : List Char) (c : Char) (rest : List Char) :
    splitLinesAux acc (c :: rest) =
      if c = '\n' then acc.reverse :: splitLinesAux [] rest
      else splitLinesAux (c :: acc) rest := rfl

lemma splitLinesAux_append (l : List Char) (hnl : '\n' ∉ l) :
    ∀ (acc s : List Char), splitLinesAux acc (l ++ s) = splitLinesAux (l.reverse ++ acc) s := by
  induction l with
  | nil => intro acc s; simp
  | cons c cs ih =>
    intro acc s
    have hc : ¬(c = '\n') := fun h => hnl (by simp [h])
    have hcs : '\n' ∉ cs := fun h => hnl (List.mem_cons_of_mem c h)
    rw [List.cons_append, splitLinesAux_cons, if_neg hc, ih hcs (c :: acc) s]
    simp

lemma splitLinesAux_newline (acc : List Char) (s : List Char) :
    splitLinesAux acc ('\n' :: s) = acc.reverse :: splitLinesAux [] s := by
  rw [splitLinesAux_cons, if_pos rfl]

lemma splitLines_intercalateNl : ∀ (ls : List (List Char)),
    (∀ l ∈ ls, '\n' ∉ l) → ls ≠ [] → splitLines (intercalateNl ls) = ls := by
  intro ls
  induction ls with
  | nil => intro _ h; exact absurd rfl h
  | cons l ls ih =>
    intro hnl _
    have hl : '\n' ∉ l := hnl l (by simp)
    cases ls with
    | nil =>
      show splitLinesAux [] (intercalateNl [l]) = [l]
      have hone : intercalateNl [l] = l := rfl
      rw [hone, ← List.append_nil l, splitLinesAux_append l hl [] []]
      simp [splitLinesAux_nil]
    | cons l2 ls2 =>
      show splitLinesAux [] (intercalateNl (l :: l2 :: ls2)) = l :: l2 :: ls2
      have hstep : intercalateNl (l :: l2 :: ls2) = l ++ '\n' :: intercalateNl (l2 :: ls2) := rfl
      rw [hstep, splitLinesAux_append l hl [] _, List.append_nil, splitLinesAux_newline]
      rw [List.reverse_reverse]
      have ih2 := ih (fun x hx => hnl x (List.mem_cons_of_mem l hx)) (by simp)
      exact congrArg (l :: ·) ih2

lemma splitLinesAux_no_newline :
    ∀ (s acc : List Char), '\n' ∉ acc →
      ∀ l ∈ splitLinesAux acc s, '\n' ∉ l := by
  intro s
  induction s with
  | nil =>
    intro acc hacc l hl
    rw [splitLinesAux_nil] at hl
    rcases List.mem_singleton.mp hl with h
    rw [h]
    simpa using hacc
  | cons c cs ih =>
    intro acc hacc l hl
    by_cases hc : c = '\n'
    · subst hc
      rw [splitLinesAux_newline] at hl
      rcases List.mem_cons.mp hl with h | h
      · rw [h]; simpa using hacc
      · exact ih [] (by simp) l h
    · rw [splitLinesAux_cons, if_neg hc] at hl
      refine ih (c :: acc) ?_ l hl
      intro hmem
      rcases List.mem_cons.mp hmem with h | h
      · exact hc h.symm
      · exact hacc h

lemma splitLines_no_newline (t : List Char) :
    ∀ l ∈ splitLines t, '\n' ∉ l :=
  splitLinesAux_no_newline t [] (by simp)

lemma sp1_eq : sp1 = ['S', 'p', 'e', 'a', 'k', 'e', 'r', ' ', '1', ':'] := by decide

lemma sp2_eq : sp2 = ['S', 'p', 'e', 'a', 'k', 'e', 'r', ' ', '2', ':'] := by decide

lemma sp1_ne_nil : sp1 ≠ [] := by decide

lemma sp2_ne_nil : sp2 ≠ [] := by decide

lemma startsWithL_sp1_sp2 (r : List Char) : startsWithL sp1 (sp2 ++ r) = false := by
  rw [sp1_eq, sp2_eq]
  simp +decide [startsWithL]

lemma startsWithL_sp2_sp1 (r : List Char) : startsWithL sp2 (sp1 ++ r) = false := by
  rw [sp1_eq, sp2_eq]
  simp +decide [startsWithL]

lemma startsWithL_sp1_space (r : List Char) : startsWithL sp1 (' ' :: r) = false := by
  rw [sp1_eq]
  simp +decide [startsWithL]

lemma startsWithL_sp2_space (r : List Char) : startsWithL sp2 (' ' :: r) = false := by
  rw [sp2_eq]
  simp +decide [startsWithL]

lemma containsSub_sp_space (pat r : List Char) (hsw : startsWithL pat (' ' :: r) = false)
    (h : containsSub pat r = false) : containsSub pat (' ' :: r) = false := by
  rw [containsSub_cons, hsw, h]
  rfl

lemma parseLine_sp1 (rest : List Char) (hrest : containsSub sp1 rest = false) :
    parseLine (sp1 ++ rest) = some ⟨"Speaker 1", String.mk (trimChars rest), none⟩ := by
  unfold parseLine
  have htrim : trimChars (sp1 ++ rest) ≠ [] := by
    rw [sp1_eq]
    exact trimChars_ne_nil_not_ws 'S' _ (by decide)
  rw [if_neg htrim, if_pos (startsWithL_append_self sp1 rest)]
  rw [removeAll_leading sp1 rest sp1_ne_nil hrest]

lemma parseLine_sp2 (rest : List Char) (hrest : containsSub sp2 rest = false) :
    parseLine (sp2 ++ rest) = some ⟨"Speaker 2", String.mk (trimChars rest), none⟩ := by
  unfold parseLine
  have htrim : trimChars (sp2 ++ rest) ≠ [] := by
    rw [sp2_eq]
    exact trimChars_ne_nil_not_ws 'S' _ (by decide)
  rw [if_neg htrim]
  rw [if_neg (by simp [startsWithL_sp1_sp2 rest])]
  rw [if_pos (startsWithL_append_self sp2 rest)]
  rw [removeAll_leading sp2 rest sp2_ne_nil hrest]

lemma parse_segments_good (t : String) (h : strictWellFormed t = true) :
    ∀ seg ∈ (parse_unstructured_script t).segments, segGood seg := by
  intro seg hmem
  have hex : ∃ l, l ∈ splitLines t.data ∧ parseLine l = some seg := by
    simpa [parse_unstructured_script, List.mem_filterMap] using hmem
  obtain ⟨l, hlmem, hpl⟩ := hex
  have hstrict : lineStrict l = true := by
    have := (List.all_eq_true.mp h) l hlmem
    simpa using this
  have hnl : '\n' ∉ l := splitLines_no_newline t.data l hlmem
  unfold lineStrict at hstrict
  split at hstrict
  · rename_i hblank
    rw [parseLine_eq_none.mpr hblank] at hpl
    cases hpl
  · split at hstrict
    · rename_i hblank hsw1
      have hl := startsWithL_drop sp1 l hsw1
      have hcont : containsSub sp1 (l.drop sp1.length) = false := by
        simpa using hstrict
      rw [hl, parseLine_sp1 _ hcont] at hpl
      have hseg := Option.some.inj hpl
      rw [← hseg]
      refine ⟨Or.inl ⟨rfl, ?_⟩, ?_, ?_, rfl⟩
      · exact containsSub_trimChars sp1 _ hcont
      · exact trimChars_idem _
      · intro hmemNl
        apply hnl
        rw [hl]
        exact List.mem_append.mpr (Or.inr (mem_trimChars hmemNl))
    · split at hstrict
      · rename_i hblank hsw1 hsw2
        have hl := startsWithL_drop sp2 l hsw2
        have hcont : containsSub sp2 (l.drop sp2.length) = false := by
          simpa using hstrict
        rw [hl, parseLine_sp2 _ hcont] at hpl
        have hseg := Option.some.inj hpl
        rw [← hseg]
        refine ⟨Or.inr ⟨rfl, ?_⟩, ?_, ?_, rfl⟩
        · exact containsSub_trimChars sp2 _ hcont
        · exact trimChars_idem _
        · intro hmemNl
          apply hnl
          rw [hl]
          exact List.mem_append.mpr (Or.inr (mem_trimChars hmemNl))
      · cases hstrict

lemma parseLine_lineOfSeg (seg : PodcastSegment) (hgood : segGood seg) :
    parseLine (lineOfSeg seg) = some seg := by
  obtain ⟨hspk, htrim, hnlx, hexp⟩ := hgood
  obtain ⟨spk, tx, ex⟩ := seg
  simp only at htrim hnlx hexp
  subst hexp
  rcases hspk with ⟨h1, hc⟩ | ⟨h2, hc⟩
  · simp only at h1 hc
    subst h1
    have hline : lineOfSeg ⟨"Speaker 1", tx, none⟩ = sp1 ++ (' ' :: tx.data) := by
      rw [sp1_eq]
      rfl
    rw [hline]
    have hcont : containsSub sp1 (' ' :: tx.data) = false :=
      containsSub_sp_space sp1 _ (startsWithL_sp1_space _) hc
    rw [parseLine_sp1 _ hcont]
    rw [trimChars_cons_ws ' ' _ (by decide), htrim]
  · simp only at h2 hc
    subst h2
    have hline : lineOfSeg ⟨"Speaker 2", tx, none⟩ = sp2 ++ (' ' :: tx.data) := by
      rw [sp2_eq]
      rfl
    rw [hline]
    have hcont : containsSub sp2 (' ' :: tx.data) = false :=
      containsSub_sp_space sp2 _ (startsWithL_sp2_space _) hc
    rw [parseLine_sp2 _ hcont]
    rw [trimChars_cons_ws ' ' _ (by decide), htrim]

lemma lineOfSeg_no_newline (seg : PodcastSegment) (hgood : segGood seg) :
    '\n' ∉ lineOfSeg seg := by
  obtain ⟨hspk, _, hnlx, _⟩ := hgood
  intro hmem
  unfold lineOfSeg at hmem
  rcases List.mem_append.mp hmem with h | h
  · rcases hspk with ⟨h1, _⟩ | ⟨h2, _⟩
    · rw [h1] at h
      exact absurd h (by decide)
    · rw [h2] at h
      exact absurd h (by decide)
  · rcases List.mem_cons.mp h with h | h
    · exact absurd h (by decide)
    · rcases List.mem_cons.mp h with h | h
      · exact absurd h (by decide)
      · exact hnlx h

lemma filterMap_parseLine_lineOfSeg :
    ∀ (segs : List PodcastSegment), (∀ seg ∈ segs, segGood seg) →
      segs.filterMap (fun seg => parseLine (lineOfSeg seg)) = segs := by
  intro segs
  induction segs with
  | nil => intro _; rfl
  | cons s ss ih =>
    intro hgood
    rw [List.filterMap_cons, parseLine_lineOfSeg s (hgood s (by simp))]
    rw [ih (fun x hx => hgood x (List.mem_cons_of_mem s hx))]

lemma reparse_render (segs : List PodcastSegment) (hgood : ∀ seg ∈ segs, segGood seg) :
    parse_unstructured_script (renderScript ⟨segs⟩) = ⟨segs⟩ := by
  cases segs with
  | nil => decide
  | cons s ss =>
    have hnlAll : ∀ l ∈ (s :: ss).map lineOfSeg, '\n' ∉ l := by
      intro l hl
      obtain ⟨seg, hsegmem, hline⟩ := List.mem_map.mp hl
      rw [← hline]
      exact lineOfSeg_no_newline seg (hgood seg hsegmem)
    unfold parse_unstructured_script renderScript
    have hdata : (String.mk (intercalateNl ((s :: ss).map
        (fun seg => seg.speaker.data ++ ':' :: ' ' :: seg.text.data)))).data
        = intercalateNl ((s :: ss).map lineOfSeg) := rfl
    rw [hdata]
    rw [splitLines_intercalateNl _ hnlAll (by simp)]
    rw [List.filterMap_map]
    have := filterMap_parseLine_lineOfSeg (s :: ss) hgood
    exact congrArg PodcastScript.mk this

/-- Claim C8 amended: fallback parsing is idempotent on strictly
well-formed prefixed text â every line blank or role-marker-prefixed with
no further occurrence of its own marker after the prefix: re-parsing the
rendered parse yields the same segment sequence. (The extra no-reoccurrence
condition is forced by the counterexample, where `str.replace` reassembles
a new marker.) -/
theorem c8_idempotence_amended (t : String) (h : strictWellFormed t = true) :
    parse_unstructured_script (renderScript (parse_unstructured_script t))
      = parse_unstructured_script t := by
  have hgood := parse_segments_good t h
  exact reparse_render (parse_unstructured_script t).segments hgood

/-- Claim C8 witness: the amended theorem at a concrete two-line
well-formed script. -/
theorem c8_idempotence_witness :
    strictWellFormed "Speaker 1: Hello there
Speaker 2: Hi" = true
    ∧ parse_unstructured_script (renderScript (parse_unstructured_script
        "Speaker 1: Hello there
Speaker 2: Hi"))
      = parse_unstructured_script "Speaker 1: Hello there
Speaker 2: Hi" :=
  ⟨by decide, c8_idempotence_amended _ (by decide)⟩

/-- Claim C8 counterexample: the single-line text
`"Speaker 2:Speaker Speaker 2:2:"` is in well-formed prefixed line form
(it begins with the second role marker), yet removing all marker
occurrences reassembles a new `"Speaker 2:"` in the parsed text, so
re-parsing the rendered segments yields a different segment sequence. -/
theorem c8_idempotence_counterexample :
    wellFormedPrefixed "Speaker 2:Speaker Speaker 2:2:" = true
    ∧ parse_unstructured_script
        (renderScript (parse_unstructured_script "Speaker 2:Speaker Speaker 2:2:"))
      ≠ parse_unstructured_script "Speaker 2:Speaker Speaker 2:2:" := by
  exact ⟨by decide, by decide⟩

/-! ## Claim C9 -/

/-- Claim C9 counterexample: with a failing upload publisher the podcast
run reaches the terminal `complete` stage (a successful completion), yet
NONE of the three result fields is populated, so "exactly one" fails. -/
theorem c9_invariant_counterexample :
    runStage (invokeGraph envUpFail (initialPodcastState "q" "doc") initEffects)
        = some "complete"
    ∧ runPop (invokeGraph envUpFail (initialPodcastState "q" "doc") initEffects) = 0 := by
  exact ⟨rfl, rfl⟩

/-- A successful `check_cache` stage never touches the flashcard or quiz
fields. -/
lemma check_cache_fields (env : Env) (st st1 : EnhancedGraphState) (eff eff1 : Effects)
    (h : check_cache env st eff = .ok (st1, eff1)) :
    st1.flashcards = st.flashcards ∧ st1.quiz = st.quiz := by
  unfold check_cache at h
  split at h
  · cases h
  · split at h <;>
    · simp only [Except.ok.injEq, Prod.mk.injEq] at h
      obtain ⟨ha, hb⟩ := h
      subst ha
      exact ⟨rfl, rfl⟩

/-- A successful retrieval stage never touches the three result fields. -/
lemma retrieve_context_fields (env : Env) (st st1 : EnhancedGraphState) (eff eff1 : Effects)
    (h : retrieve_context env st eff = .ok (st1, eff1)) :
    st1.s3_url = st.s3_url ∧ st1.flashcards = st.flashcards ∧ st1.quiz = st.quiz := by
  unfold retrieve_context at h
  dsimp only at h
  split at h
  · cases h
  · cases h
  · split at h
    · cases h
    · split at h
      · cases h
      · simp only [Except.ok.injEq, Prod.mk.injEq] at h
        obtain ⟨ha, hb⟩ := h
        subst ha
        exact ⟨rfl, rfl, rfl⟩

/-- A successful outline stage never touches the three result fields. -/
lemma expand_topic_fields (env : Env) (st st1 : EnhancedGraphState) (eff eff1 : Effects)
    (h : expand_topic env st eff = .ok (st1, eff1)) :
    st1.s3_url = st.s3_url ∧ st1.flashcards = st.flashcards ∧ st1.quiz = st.quiz := by
  unfold expand_topic at h
  dsimp only at h
  split at h
  · cases h
  · split at h
    · cases h
    · simp only [Except.ok.injEq, Prod.mk.injEq] at h
      obtain ⟨ha, hb⟩ := h
      subst ha
      exact ⟨rfl, rfl, rfl⟩

/-- A successful script stage never touches the three result fields. -/
lemma generate_script_fields (env : Env) (st st1 : EnhancedGraphState) (eff eff1 : Effects)
    (h : generate_script env st eff = .ok (st1, eff1)) :
    st1.s3_url = st.s3_url ∧ st1.flashcards = st.flashcards ∧ st1.quiz = st.quiz := by
  unfold generate_script at h
  dsimp only at h
  split at h
  · cases h
  · split at h
    · cases h
    · split at h
      · cases h
      · simp only [Except.ok.injEq, Prod.mk.injEq] at h
        obtain ⟨ha, hb⟩ := h
        subst ha
        exact ⟨rfl, rfl, rfl⟩

/-- A successful TTS stage never touches the flashcard or quiz fields. -/
lemma generate_tts_fields (env : Env) (st st1 : EnhancedGraphState) (eff eff1 : Effects)
    (h : generate_tts env st eff = .ok (st1, eff1)) :
    st1.flashcards = st.flashcards ∧ st1.quiz = st.quiz := by
  unfold generate_tts at h
  dsimp only at h
  split at h
  · simp only [Except.ok.injEq, Prod.mk.injEq] at h
    obtain ⟨ha, hb⟩ := h
    subst ha
    exact ⟨rfl, rfl⟩
  · split at h
    · cases h
    · split at h
      · cases h
      · split at h
        · cases h
        · split at h
          · split at h
            · simp only [Except.ok.injEq, Prod.mk.injEq] at h
              obtain ⟨ha, hb⟩ := h
              subst ha
              exact ⟨rfl, rfl⟩
            · simp only [Except.ok.injEq, Prod.mk.injEq] at h
              obtain ⟨ha, hb⟩ := h
              subst ha
              exact ⟨rfl, rfl⟩
          · simp only [Except.ok.injEq, Prod.mk.injEq] at h
            obtain ⟨ha, hb⟩ := h
            subst ha
            exact ⟨rfl, rfl⟩

/-- The quiz node never touches the audio location or flashcard fields. -/
lemma generate_quiz_fields (env : Env) (st st1 : EnhancedGraphState) (eff eff1 : Effects)
    (h : generate_quiz env st eff = .ok (st1, eff1)) :
    st1.s3_url = st.s3_url ∧ st1.flashcards = st.flashcards := by
  unfold generate_quiz at h
  dsimp only at h
  split at h
  · cases h
  · split at h <;>
    · simp only [Except.ok.injEq, Prod.mk.injEq] at h
      obtain ⟨ha, hb⟩ := h
      subst ha
      exact ⟨rfl, rfl⟩

/-- The flashcard node never touches the audio location or quiz fields. -/
lemma generate_flashcards_fields (env : Env) (st st1 : EnhancedGraphState) (eff eff1 : Effects)
    (h : generate_flashcards env st eff = .ok (st1, eff1)) :
    st1.s3_url = st.s3_url ∧ st1.quiz = st.quiz := by
  unfold generate_flashcards at h
  dsimp only at h
  split at h
  · cases h
  · split at h <;>
    · simp only [Except.ok.injEq, Prod.mk.injEq] at h
      obtain ⟨ha, hb⟩ := h
      subst ha
      exact ⟨rfl, rfl⟩

/-- Per routing branch, a finished graph run can only have written the
result field of its own branch. -/
lemma invokeGraph_fields (env : Env) (st st1 : EnhancedGraphState) (eff eff1 : Effects)
    (h : invokeGraph env st eff = .ok (st1, eff1)) :
    (st.output_type = "podcast" ∧ st1.flashcards = st.flashcards ∧ st1.quiz = st.quiz)
    ∨ (st.output_type = "flashcards" ∧ st1.s3_url = st.s3_url ∧ st1.quiz = st.quiz)
    ∨ (st.output_type = "quiz" ∧ st1.s3_url = st.s3_url ∧ st1.flashcards = st.flashcards) := by
  unfold invokeGraph at h
  dsimp only at h
  split at h
  · rename_i hcond
    left
    refine ⟨hcond, ?_⟩
    split at h
    · cases h
    · rename_i sta effa hcc
      have hcc2 := check_cache_fields env (route_content st) sta eff effa hcc
      split at h
      · have hts := generate_tts_fields env sta st1 effa eff1 h
        exact ⟨hts.1.trans hcc2.1, hts.2.trans hcc2.2⟩
      · split at h
        · cases h
        · rename_i stb effb hrc
          have hb := retrieve_context_fields env sta stb effa effb hrc
          split at h
          · cases h
          · rename_i stc effc het
            have hc := expand_topic_fields env stb stc effb effc het
            split at h
            · cases h
            · rename_i std effd hgs
              have hd := generate_script_fields env stc std effc effd hgs
              have he := generate_tts_fields env std st1 effd eff1 h
              constructor
              · exact he.1.trans (hd.2.1.trans (hc.2.1.trans (hb.2.1.trans hcc2.1)))
              · exact he.2.trans (hd.2.2.trans (hc.2.2.trans (hb.2.2.trans hcc2.2)))
  · split at h
    · rename_i hcond1 hcond2
      right; left
      have hf := generate_flashcards_fields env (route_content st) st1 eff eff1 h
      exact ⟨hcond2, hf.1, hf.2⟩
    · split at h
      · rename_i hcond1 hcond2 hcond3
        right; right
        have hq := generate_quiz_fields env (route_content st) st1 eff eff1 h
        exact ⟨hcond3, hq.1, hq.2⟩
      · cases h

/-- Claim C9 amended: for every run that completes successfully, AT MOST
one of the three result fields is populated, and a populated field always
matches the requested output type; a publish-failing podcast run and a
degraded quiz or flashcard run complete successfully with none populated. -/
theorem c9_invariant_amended (env : Env) (st : EnhancedGraphState) (eff : Effects)
    (h0 : st.s3_url = none) (h1 : st.flashcards = none) (h2 : st.quiz = none) :
    runPop (invokeGraph env st eff) ≤ 1
    ∧ (runS3IsSome (invokeGraph env st eff) = true → st.output_type = "podcast")
    ∧ (runFlashIsSome (invokeGraph env st eff) = true → st.output_type = "flashcards")
    ∧ (runQuizIsSome (invokeGraph env st eff) = true → st.output_type = "quiz") := by
  cases hrun : invokeGraph env st eff with
  | error e => simp [runPop, runS3IsSome, runFlashIsSome, runQuizIsSome]
  | ok p =>
    obtain ⟨st1, eff1⟩ := p
    rcases invokeGraph_fields env st st1 eff eff1 hrun with
      ⟨ho, hf, hq⟩ | ⟨ho, hs3, hq⟩ | ⟨ho, hs3, hf⟩
    · refine ⟨?_, fun _ => ho, ?_, ?_⟩
      · simp only [runPop, populatedCount, hf, hq, h1, h2, Option.isSome_none]
        cases hs : st1.s3_url <;> simp [hs]
      · simp [runFlashIsSome, hf, h1]
      · simp [runQuizIsSome, hq, h2]
    · refine ⟨?_, ?_, fun _ => ho, ?_⟩
      · simp only [runPop, populatedCount, hs3, hq, h0, h2, Option.isSome_none]
        cases hs : st1.flashcards <;> simp [hs]
      · simp [runS3IsSome, hs3, h0]
      · simp [runQuizIsSome, hq, h2]
    · refine ⟨?_, ?_, ?_, fun _ => ho⟩
      · simp only [runPop, populatedCount, hs3, hf, h0, h1, Option.isSome_none]
        cases hs : st1.quiz <;> simp [hs]
      · simp [runS3IsSome, hs3, h0]
      · simp [runFlashIsSome, hf, h1]

/-- Claim C9 witness: the amended theorem at the concrete publish-failing
environment and initial podcast state. -/
theorem c9_invariant_witness :
    runPop (invokeGraph envUpFail (initialPodcastState "q" "doc") initEffects) ≤ 1
    ∧ (runS3IsSome (invokeGraph envUpFail (initialPodcastState "q" "doc") initEffects) = true →
        (initialPodcastState "q" "doc").output_type = "podcast")
    ∧ (runFlashIsSome (invokeGraph envUpFail (initialPodcastState "q" "doc") initEffects) = true →
        (initialPodcastState "q" "doc").output_type = "flashcards")
    ∧ (runQuizIsSome (invokeGraph envUpFail (initialPodcastState "q" "doc") initEffects) = true →
        (initialPodcastState "q" "doc").output_type = "quiz") :=
  c9_invariant_amended envUpFail (initialPodcastState "q" "doc") initEffects rfl rfl rfl

/-- Claim C10 witness at concrete states with and without a context. -/
theorem c10_context_witness :
    (∃ r, generate_quiz baseEnv (initialPodcastState "q" "doc") initEffects = .ok r)
    ∧ (∃ r, generate_flashcards baseEnv (initialPodcastState "q" "doc") initEffects = .ok r)
    ∧ generate_quiz baseEnv stNoRag initEffects
        = .error (.attrError "NoneType object has no attribute question")
    ∧ generate_flashcards baseEnv stNoRag initEffects
        = .error (.attrError "NoneType object has no attribute question") :=
  c10_context_precondition baseEnv (initialPodcastState "q" "doc") stNoRag
    initEffects ⟨"q", "doc", none, []⟩ rfl rfl

end LearnLab
